import Mathlib

/-!
# Hostel-Hub 2.0 — verification of the status-lifecycle and cart/order core

A shallow embedding, in Lean 4, of the Mongoose models and Express route
logic of the Hostel-Hub repository:

* `Cart` / `Order` (backend/models, `cartSchema` / `orderSchema`): item lists,
  total recomputation, status machine, status history, cancellation, rating;
* the order-placement and status-update routes (backend/routes, canteen
  orders): delivery-fee threshold, stock checks, per-item stock/order-count
  updates;
* `MaintenanceRequest` and `OutpassRequest` (backend/models): status history,
  duration recomputation, the overdue predicate;
* `MealRating` (backend/models): overall-rating recomputation from sub-scores;
* `MenuItem` (backend/models/Menu.js): `incrementOrderCount` and the stock
  sentinel.

JavaScript numbers that only ever hold integral values (prices, quantities,
millisecond timestamps, scores) are modelled as `Int`.  Mongoose ObjectIds are
modelled as `Nat`.  `Date` values are modelled as milliseconds since the epoch
(`Int`).  A JavaScript `throw` inside an instance method that happens before
any mutation of the document is modelled as `Except.error`, so the document
value held by the caller is unchanged on failure.  `doc.save()` is modelled by
applying the schema's pre-save middleware with the document's `isNew` flag.
-/

namespace HostelHub

/-! ## Cart (cartSchema, backend/models) -/

/-- A cart line item (`cartItemSchema`): menu-item reference, quantity,
unit-price snapshot, special instructions, `addedAt` timestamp. -/
structure CartItem where
  menuItem : Nat
  quantity : Int
  price : Int
  specialInstructions : String
  addedAt : Int
  deriving DecidableEq

/-- The per-user cart (`cartSchema`): mutable item list plus the derived
`totalAmount` and `itemCount` fields and the `lastUpdated` timestamp. -/
structure Cart where
  items : List CartItem
  totalAmount : Int
  itemCount : Int
  lastUpdated : Int
  deriving DecidableEq

/-- `cartSchema.methods.recalculateTotal`: recomputes `totalAmount` and
`itemCount` from the current item list with `Array.prototype.reduce`. -/
def Cart.recalculateTotal (c : Cart) : Cart :=
  { c with
    totalAmount := c.items.foldl (fun total item => total + item.price * item.quantity) 0,
    itemCount := c.items.foldl (fun count item => count + item.quantity) 0 }

/-- `cartSchema.pre('save')`: every save runs `recalculateTotal` first. -/
def Cart.save (c : Cart) : Cart :=
  c.recalculateTotal

/-- The body of `cartSchema.methods.addItem` acting on the item list:
`findIndex` locates the first line with the same menu-item id; if found its
quantity is increased, its special instructions are overwritten when the new
ones are non-empty (`specialInstructions || existing`), and `addedAt` is
refreshed; otherwise a new line is pushed. -/
def addToItems (menuItemId : Nat) (quantity price : Int) (specialInstructions : String)
    (now : Int) : List CartItem → List CartItem
  | [] => [⟨menuItemId, quantity, price, specialInstructions, now⟩]
  | item :: rest =>
    if item.menuItem = menuItemId then
      { item with
        quantity := item.quantity + quantity,
        specialInstructions :=
          if specialInstructions = "" then item.specialInstructions else specialInstructions,
        addedAt := now } :: rest
    else
      item :: addToItems menuItemId quantity price specialInstructions now rest

/-- `cartSchema.methods.addItem`: merge or push the line, then
`recalculateTotal`, refresh `lastUpdated`, and `save()`. -/
def Cart.addItem (c : Cart) (menuItemId : Nat) (quantity price : Int)
    (specialInstructions : String) (now : Int) : Cart :=
  let c := { c with items := addToItems menuItemId quantity price specialInstructions now c.items }
  let c := c.recalculateTotal
  let c := { c with lastUpdated := now }
  c.save

/-- The body of `cartSchema.methods.updateItemQuantity` acting on the item
list: `none` when no line carries the id (the method throws); otherwise the
first matching line is removed (`quantity <= 0`, mirroring `splice`) or its
quantity is overwritten and `addedAt` refreshed. -/
def updateQtyInItems (menuItemId : Nat) (quantity : Int) (now : Int) :
    List CartItem → Option (List CartItem)
  | [] => none
  | item :: rest =>
    if item.menuItem = menuItemId then
      some (if quantity ≤ 0 then rest
            else { item with quantity := quantity, addedAt := now } :: rest)
    else
      (updateQtyInItems menuItemId quantity now rest).map (item :: ·)

/-- `cartSchema.methods.updateItemQuantity`: throws `Item not found in cart`
when the line is absent (before any mutation); otherwise rewrites the line,
recalculates, refreshes `lastUpdated` and saves. -/
def Cart.updateItemQuantity (c : Cart) (menuItemId : Nat) (quantity : Int) (now : Int) :
    Except String Cart :=
  match updateQtyInItems menuItemId quantity now c.items with
  | some items =>
    let c := { c with items := items }
    let c := c.recalculateTotal
    let c := { c with lastUpdated := now }
    .ok c.save
  | none => .error "Item not found in cart"

/-- The body of `cartSchema.methods.removeItem` acting on the item list:
`none` when no line carries the id; otherwise the first matching line is
spliced out. -/
def removeFromItems (menuItemId : Nat) : List CartItem → Option (List CartItem)
  | [] => none
  | item :: rest =>
    if item.menuItem = menuItemId then some rest
    else (removeFromItems menuItemId rest).map (item :: ·)

/-- `cartSchema.methods.removeItem`: throws `Item not found in cart` when the
line is absent; otherwise splices it out, recalculates, refreshes
`lastUpdated` and saves. -/
def Cart.removeItem (c : Cart) (menuItemId : Nat) (now : Int) : Except String Cart :=
  match removeFromItems menuItemId c.items with
  | some items =>
    let c := { c with items := items }
    let c := c.recalculateTotal
    let c := { c with lastUpdated := now }
    .ok c.save
  | none => .error "Item not found in cart"

/-- `cartSchema.methods.clearCart`: empties the item list, zeroes both
totals, refreshes `lastUpdated` and saves. -/
def Cart.clearCart (c : Cart) (now : Int) : Cart :=
  Cart.save { c with items := [], totalAmount := 0, itemCount := 0, lastUpdated := now }

/-- The documented cart invariant: the stored totals equal the sums of
`price × quantity` and of `quantity` over the current item list. -/
abbrev CartInv (c : Cart) : Prop :=
  c.totalAmount = (c.items.map (fun item => item.price * item.quantity)).sum ∧
  c.itemCount = (c.items.map (fun item => item.quantity)).sum

/-- One user-visible cart mutation, with the call-time arguments it carries. -/
inductive CartOp
  | add (menuItemId : Nat) (quantity price : Int) (specialInstructions : String) (now : Int)
  | update (menuItemId : Nat) (quantity : Int) (now : Int)
  | remove (menuItemId : Nat) (now : Int)
  | clear (now : Int)
  deriving DecidableEq

/-- Run one cart mutation.  The two fallible methods throw before mutating
the document, so a failed call leaves the cart exactly as it was. -/
def Cart.applyOp (c : Cart) : CartOp → Cart
  | .add menuItemId quantity price specialInstructions now =>
    c.addItem menuItemId quantity price specialInstructions now
  | .update menuItemId quantity now =>
    match c.updateItemQuantity menuItemId quantity now with
    | .ok c' => c'
    | .error _ => c
  | .remove menuItemId now =>
    match c.removeItem menuItemId now with
    | .ok c' => c'
    | .error _ => c
  | .clear now => c.clearCart now

theorem foldl_add_eq_sum (f : CartItem → Int) :
    ∀ (l : List CartItem) (a : Int),
      l.foldl (fun t item => t + f item) a = a + (l.map f).sum := by
  intro l
  induction l with
  | nil => simp
  | cons x xs ih =>
    intro a
    simp only [List.foldl_cons, List.map_cons, List.sum_cons, ih]
    ring

theorem cartInv_recalculateTotal (c : Cart) : CartInv c.recalculateTotal := by
  constructor <;>
    simp [Cart.recalculateTotal, foldl_add_eq_sum]

theorem cartInv_save (c : Cart) : CartInv c.save :=
  cartInv_recalculateTotal c

theorem cartInv_applyOp (c : Cart) (op : CartOp) (h : CartInv c) :
    CartInv (c.applyOp op) := by
  cases op with
  | add menuItemId quantity price specialInstructions now =>
    exact cartInv_save _
  | update menuItemId quantity now =>
    simp only [Cart.applyOp, Cart.updateItemQuantity]
    cases updateQtyInItems menuItemId quantity now c.items with
    | some items => exact cartInv_save _
    | none => exact h
  | remove menuItemId now =>
    simp only [Cart.applyOp, Cart.removeItem]
    cases removeFromItems menuItemId c.items with
    | some items => exact cartInv_save _
    | none => exact h
  | clear now => exact cartInv_save _

theorem cartInv_foldl (ops : List CartOp) :
    ∀ (c : Cart), CartInv c → CartInv (ops.foldl Cart.applyOp c) := by
  induction ops with
  | nil => exact fun c h => h
  | cons op rest ih =>
    intro c h
    exact ih _ (cartInv_applyOp c op h)

/-- C1: for every cart and every sequence of `addItem`, `updateItemQuantity`,
`removeItem` and `clearCart` calls, after each operation completes (and after
every save) `totalAmount` equals Σ price × quantity and `itemCount` equals
Σ quantity over the current item list. -/
theorem cart_totals_invariant (c : Cart) (h : CartInv c) (op : CartOp) (ops : List CartOp) :
    CartInv c.save ∧ CartInv (c.applyOp op) ∧ CartInv (ops.foldl Cart.applyOp c) :=
  ⟨cartInv_save c, cartInv_applyOp c op h, cartInv_foldl ops c h⟩

/-- C1 witness: a fresh cart, one merged add, a quantity update, a failing
remove and a clear, all preserving the invariant. -/
theorem cart_totals_invariant_witness :
    CartInv (Cart.mk [] 0 0 0) ∧
    CartInv ((Cart.mk [] 0 0 0).applyOp (.add 1 2 50 "" 0)) ∧
    CartInv
      ([CartOp.add 1 2 50 "" 0, CartOp.add 2 1 30 "" 1, CartOp.update 1 3 2,
        CartOp.remove 9 3, CartOp.clear 4].foldl Cart.applyOp (Cart.mk [] 0 0 0)) := by
  have h := cart_totals_invariant (Cart.mk [] 0 0 0) (by constructor <;> rfl)
    (.add 1 2 50 "" 0)
    [CartOp.add 1 2 50 "" 0, CartOp.add 2 1 30 "" 1, CartOp.update 1 3 2,
      CartOp.remove 9 3, CartOp.clear 4]
  exact ⟨by constructor <;> rfl, h.2.1, h.2.2⟩

/-! ## Order (orderSchema, backend/models; order routes, backend/routes) -/

/-- The `orderSchema.status` enum. -/
inductive OrderStatus
  | pending | confirmed | preparing | ready | out_for_delivery | delivered | cancelled
  deriving DecidableEq

/-- A frozen order line item (`orderItemSchema`). -/
structure OrderItem where
  menuItem : Nat
  name : String
  price : Int
  quantity : Int
  specialInstructions : String
  subtotal : Int
  deriving DecidableEq

/-- One `orderSchema.statusHistory` entry. -/
structure OrderHistoryEntry where
  status : OrderStatus
  timestamp : Int
  updatedBy : Option Nat
  notes : String
  deriving DecidableEq

/-- The embedded `orderSchema.rating` sub-document. -/
structure OrderRating where
  food : Option Int
  delivery : Option Int
  overall : Option Int
  comment : String
  ratedAt : Option Int
  deriving DecidableEq

/-- The rating payload passed to `addRating` (spread into `this.rating`). -/
structure RatingData where
  food : Option Int
  delivery : Option Int
  overall : Option Int
  comment : String
  deriving DecidableEq

/-- An order document (`orderSchema`), restricted to the fields the lifecycle
methods read or write.  `discountAmount` is `discount.amount` (default 0). -/
structure Order where
  orderNumber : String
  user : Nat
  items : List OrderItem
  totalAmount : Int
  deliveryFee : Int
  discountAmount : Int
  finalAmount : Int
  status : OrderStatus
  estimatedDeliveryTime : Option Int
  actualDeliveryTime : Option Int
  preparationStartTime : Option Int
  preparationEndTime : Option Int
  statusHistory : List OrderHistoryEntry
  rating : Option OrderRating
  cancellationReason : String
  deriving DecidableEq

/-- `orderSchema.pre('save')`: on a new document it computes
`finalAmount = totalAmount + deliveryFee - discount.amount`, defaults the
estimated delivery time to thirty minutes ahead, and pushes the initial
status onto `statusHistory`; on an existing document it does nothing. -/
def orderPreSave (o : Order) (isNew : Bool) (now : Int) : Order :=
  if isNew then
    let o := { o with finalAmount := o.totalAmount + o.deliveryFee - o.discountAmount }
    let o :=
      if o.estimatedDeliveryTime = none then
        { o with estimatedDeliveryTime := some (now + 30 * 60 * 1000) }
      else o
    { o with statusHistory := o.statusHistory ++ [⟨o.status, now, none, ""⟩] }
  else o

/-- `orderSchema.methods.updateStatus`: unconditionally sets the new status,
stamps the matching timestamp field, appends one history entry and saves. -/
def Order.updateStatus (o : Order) (newStatus : OrderStatus) (updatedBy : Option Nat)
    (notes : String) (now : Int) : Order :=
  let o := { o with status := newStatus }
  let o :=
    match newStatus with
    | .preparing => { o with preparationStartTime := some now }
    | .ready => { o with preparationEndTime := some now }
    | .delivered => { o with actualDeliveryTime := some now }
    | _ => o
  let o := { o with statusHistory := o.statusHistory ++ [⟨newStatus, now, updatedBy, notes⟩] }
  orderPreSave o false now

/-- `orderSchema.virtual('isCancellable')`: status is `pending` or
`confirmed`. -/
def Order.isCancellable (o : Order) : Bool :=
  o.status == .pending || o.status == .confirmed

/-- `orderSchema.methods.cancelOrder`: throws (before any mutation) unless
the order is cancellable; otherwise sets `cancelled`, stores the reason,
appends the history entry and saves. -/
def Order.cancelOrder (o : Order) (reason : String) (updatedBy : Option Nat) (now : Int) :
    Except String Order :=
  if !o.isCancellable then
    .error "Order cannot be cancelled at this stage"
  else
    let o := { o with status := .cancelled, cancellationReason := reason }
    let o :=
      { o with
        statusHistory :=
          o.statusHistory ++ [⟨.cancelled, now, updatedBy, "Cancelled: " ++ reason⟩] }
    .ok (orderPreSave o false now)

/-- `orderSchema.methods.addRating`: throws unless the order is delivered;
otherwise overwrites the embedded rating with `ratedAt = now` and saves. -/
def Order.addRating (o : Order) (ratingData : RatingData) (now : Int) : Except String Order :=
  if o.status ≠ OrderStatus.delivered then
    .error "Can only rate delivered orders"
  else
    .ok (orderPreSave
      { o with
        rating := some
          ⟨ratingData.food, ratingData.delivery, ratingData.overall,
            ratingData.comment, some now⟩ }
      false now)

/-- The order-placement route (`router.post('/')`, canteen order routes):
line items are frozen from the cart with `subtotal = price * quantity`,
`totalAmount` is the cart's total, the delivery fee is waived at or above
100, and `finalAmount = totalAmount + deliveryFee` (no discount is applied
at placement).  `menuName` models the populated menu-item names. -/
def buildOrderFromCart (orderNumber : String) (user : Nat) (menuName : Nat → String)
    (cart : Cart) : Order :=
  let orderItems := cart.items.map (fun item =>
    { menuItem := item.menuItem
      name := menuName item.menuItem
      price := item.price
      quantity := item.quantity
      specialInstructions := item.specialInstructions
      subtotal := item.price * item.quantity : OrderItem })
  let totalAmount := cart.totalAmount
  let deliveryFee : Int := if totalAmount ≥ 100 then 0 else 20
  let finalAmount := totalAmount + deliveryFee
  { orderNumber := orderNumber
    user := user
    items := orderItems
    totalAmount := totalAmount
    deliveryFee := deliveryFee
    discountAmount := 0
    finalAmount := finalAmount
    status := .pending
    estimatedDeliveryTime := none
    actualDeliveryTime := none
    preparationStartTime := none
    preparationEndTime := none
    statusHistory := []
    rating := none
    cancellationReason := "" }

/-- `await order.save()` in the placement route: the built document is saved
as a new document, running the pre-save middleware with `isNew = true`. -/
def placeOrder (orderNumber : String) (user : Nat) (menuName : Nat → String)
    (cart : Cart) (now : Int) : Order :=
  orderPreSave (buildOrderFromCart orderNumber user menuName cart) true now

theorem updateStatus_finalAmount (o : Order) (s : OrderStatus) (updatedBy : Option Nat)
    (notes : String) (now : Int) :
    (o.updateStatus s updatedBy notes now).finalAmount = o.finalAmount := by
  cases s <;> simp [Order.updateStatus, orderPreSave]

theorem cancelOrder_ok_finalAmount (o : Order) (reason : String) (updatedBy : Option Nat)
    (now : Int) (o' : Order) (h : o.cancelOrder reason updatedBy now = .ok o') :
    o'.finalAmount = o.finalAmount := by
  unfold Order.cancelOrder at h
  split at h
  · cases h
  · cases h
    simp [orderPreSave]

theorem addRating_ok_finalAmount (o : Order) (ratingData : RatingData) (now : Int)
    (o' : Order) (h : o.addRating ratingData now = .ok o') :
    o'.finalAmount = o.finalAmount := by
  unfold Order.addRating at h
  split at h
  · cases h
  · cases h
    simp [orderPreSave]

/-- C2: an order placed from a non-empty cart has `deliveryFee = 0` when the
cart total is at least 100 and 20 otherwise, the persisted order satisfies
`finalAmount = totalAmount + deliveryFee - discount.amount`, and no later
status mutation (`updateStatus`, `cancelOrder`, `addRating`) changes
`finalAmount`. -/
theorem order_fee_and_final_amount (orderNumber : String) (user : Nat)
    (menuName : Nat → String) (cart : Cart) (now : Int) (o : Order)
    (hne : cart.items ≠ [])
    (ho : o = placeOrder orderNumber user menuName cart now) :
    (cart.totalAmount ≥ 100 → o.deliveryFee = 0) ∧
    (cart.totalAmount < 100 → o.deliveryFee = 20) ∧
    o.finalAmount = o.totalAmount + o.deliveryFee - o.discountAmount ∧
    (∀ s updatedBy notes t, (o.updateStatus s updatedBy notes t).finalAmount = o.finalAmount) ∧
    (∀ reason updatedBy t o', o.cancelOrder reason updatedBy t = .ok o' →
      o'.finalAmount = o.finalAmount) ∧
    (∀ ratingData t o', o.addRating ratingData t = .ok o' →
      o'.finalAmount = o.finalAmount) := by
  subst ho
  refine ⟨?_, ?_, ?_, fun s u n t => updateStatus_finalAmount _ s u n t,
    fun r u t o' h => cancelOrder_ok_finalAmount _ r u t o' h,
    fun rd t o' h => addRating_ok_finalAmount _ rd t o' h⟩
  · intro h
    simp [placeOrder, buildOrderFromCart, orderPreSave, h]
  · intro h
    simp [placeOrder, buildOrderFromCart, orderPreSave, not_le.mpr h]
  · by_cases h : cart.totalAmount ≥ 100 <;>
      simp [placeOrder, buildOrderFromCart, orderPreSave, h]

/-- The spec's placement scenario cart: items priced 50 at quantity 2 and 30
at quantity 1, built through `addItem`. -/
def scenarioCart : Cart :=
  ((Cart.mk [] 0 0 0).addItem 1 2 50 "" 0).addItem 2 1 30 "" 0

/-- C2 witness: the scenario cart yields `totalAmount = 130`,
`deliveryFee = 0` and `finalAmount = 130`, and a later status update leaves
`finalAmount` at 130. -/
theorem order_fee_and_final_amount_witness :
    scenarioCart.totalAmount = 130 ∧
    (placeOrder "ORD20250101001" 7 (fun _ => "item") scenarioCart 0).deliveryFee = 0 ∧
    (placeOrder "ORD20250101001" 7 (fun _ => "item") scenarioCart 0).finalAmount = 130 ∧
    ((placeOrder "ORD20250101001" 7 (fun _ => "item") scenarioCart 0).updateStatus
        .confirmed (some 3) "" 5).finalAmount = 130 := by
  have h := order_fee_and_final_amount "ORD20250101001" 7 (fun _ => "item") scenarioCart 0
    (placeOrder "ORD20250101001" 7 (fun _ => "item") scenarioCart 0)
    (by decide) rfl
  refine ⟨by decide, h.1 (by decide), by decide, ?_⟩
  rw [h.2.2.2.1 .confirmed (some 3) "" 5]
  decide

/-- C3: `cancelOrder` succeeds exactly when the status is `pending` or
`confirmed`; on success the status becomes `cancelled` and the reason is
stored; otherwise it throws `Order cannot be cancelled at this stage` before
mutating anything, so the caller's document is unchanged. -/
theorem cancelOrder_precondition (o : Order) (reason : String) (updatedBy : Option Nat)
    (now : Int) :
    ((o.status = .pending ∨ o.status = .confirmed) →
      ∃ o', o.cancelOrder reason updatedBy now = .ok o' ∧
        o'.status = .cancelled ∧ o'.cancellationReason = reason) ∧
    (¬(o.status = .pending ∨ o.status = .confirmed) →
      o.cancelOrder reason updatedBy now = .error "Order cannot be cancelled at this stage") := by
  constructor
  · intro h
    have hc : o.isCancellable = true := by
      rcases h with h | h <;> simp [Order.isCancellable, h]
    simp [Order.cancelOrder, hc, orderPreSave]
  · intro h
    push_neg at h
    have hc : o.isCancellable = false := by
      simp [Order.isCancellable, h.1, h.2]
    simp [Order.cancelOrder, hc]

/-- C3 witness: a pending order cancels successfully into `cancelled` with
the reason stored. -/
theorem cancelOrder_precondition_witness :
    ∃ o', (Order.mk "ORD1" 1 [] 50 20 0 70 .pending none none none none [] none
        "").cancelOrder "changed my mind" (some 1) 9 = .ok o' ∧
      o'.status = .cancelled ∧ o'.cancellationReason = "changed my mind" :=
  (cancelOrder_precondition
    (Order.mk "ORD1" 1 [] 50 20 0 70 .pending none none none none [] none "")
    "changed my mind" (some 1) 9).1 (Or.inl rfl)

/-- A concrete order sitting at `preparing`, used to exercise the admin
status-update path. -/
def preparingOrder : Order :=
  Order.mk "ORD20250101002" 2 [] 120 0 0 120 .preparing none none none none [] none ""

/-- C4 counterexample: `updateStatus` (the method behind the admin
`PUT /:id/status` route) applies any requested status unconditionally, so an
order sitting at `preparing` enters `cancelled` directly, which the claim
says can never happen. -/
theorem order_status_machine_counterexample :
    preparingOrder.status = .preparing ∧
    (preparingOrder.updateStatus .cancelled (some 1) "" 0).status = .cancelled := by
  decide

/-- C4 (amended): `cancelOrder` lets an order enter `cancelled` only from
`pending` or `confirmed`, but `updateStatus` — used by the admin status
route — sets whatever status is requested with no transition restriction, so
the forward-only ordering is not enforced on that path. -/
theorem order_status_machine_amended (o : Order) :
    (∀ reason updatedBy now o', o.cancelOrder reason updatedBy now = .ok o' →
      (o.status = .pending ∨ o.status = .confirmed) ∧ o'.status = .cancelled) ∧
    (∀ s updatedBy notes now, (o.updateStatus s updatedBy notes now).status = s) := by
  constructor
  · intro reason updatedBy now o' h
    by_cases hc : o.isCancellable = true
    · refine ⟨?_, ?_⟩
      · simp only [Order.isCancellable, Bool.or_eq_true, beq_iff_eq] at hc
        exact hc
      · simp only [Order.cancelOrder, hc, Bool.not_true, Bool.false_eq_true, reduceIte] at h
        cases h
        simp [orderPreSave]
    · simp only [Bool.not_eq_true] at hc
      simp [Order.cancelOrder, hc] at h
  · intro s updatedBy notes now
    cases s <;> simp [Order.updateStatus, orderPreSave]

/-- The pending order fed to the amended-C4 witness. -/
def pendingOrderC4 : Order :=
  Order.mk "ORD3" 3 [] 40 20 0 60 .pending none none none none [] none ""

/-- The document `pendingOrderC4.cancelOrder "done" (some 4) 2` persists. -/
def cancelledOrderC4 : Order :=
  Order.mk "ORD3" 3 [] 40 20 0 60 .cancelled none none none none
    [⟨.cancelled, 2, some 4, "Cancelled: done"⟩] none "done"

/-- C4 (amended) witness: a pending order cancelled through `cancelOrder`
was indeed pending and ends cancelled. -/
theorem order_status_machine_amended_witness :
    (pendingOrderC4.status = .pending ∨ pendingOrderC4.status = .confirmed) ∧
    cancelledOrderC4.status = .cancelled := by
  have h := (order_status_machine_amended pendingOrderC4).1 "done" (some 4) 2
    cancelledOrderC4
    (by simp [pendingOrderC4, cancelledOrderC4, Order.cancelOrder, Order.isCancellable,
      orderPreSave])
  exact ⟨h.1, h.2⟩

/-! ## MaintenanceRequest (maintenanceRequestSchema, backend/models) -/

/-- The `maintenanceRequestSchema.status` enum. -/
inductive MaintStatus
  | pending | acknowledged | in_progress | waiting_parts | completed | cancelled | rejected
  deriving DecidableEq

/-- One `maintenanceRequestSchema.statusHistory` entry. -/
structure MaintHistoryEntry where
  status : MaintStatus
  changedBy : Option Nat
  changedAt : Int
  notes : String
  deriving DecidableEq

/-- A maintenance request (`maintenanceRequestSchema`), restricted to the
fields the lifecycle methods read or write. -/
structure MaintenanceRequest where
  title : String
  description : String
  status : MaintStatus
  actualCompletionDate : Option Int
  studentRating : Option Int
  studentFeedback : String
  requestedBy : Nat
  statusHistory : List MaintHistoryEntry
  deriving DecidableEq

/-- `maintenanceRequestSchema.pre('save')`: a new document seeds
`statusHistory` with a `pending` entry attributed to the requester. -/
def maintPreSave (m : MaintenanceRequest) (isNew : Bool) (now : Int) : MaintenanceRequest :=
  if isNew then
    { m with
      statusHistory :=
        m.statusHistory ++
          [MaintHistoryEntry.mk .pending (some m.requestedBy) now "Request submitted"] }
  else m

/-- `maintenanceRequestSchema.methods.updateStatus`: appends one history
entry, sets the status, stamps `actualCompletionDate` when completing, and
saves. -/
def MaintenanceRequest.updateStatus (m : MaintenanceRequest) (newStatus : MaintStatus)
    (changedBy : Option Nat) (notes : String) (now : Int) : MaintenanceRequest :=
  let m :=
    { m with
      statusHistory := m.statusHistory ++ [MaintHistoryEntry.mk newStatus changedBy now notes] }
  let m := { m with status := newStatus }
  let m := if newStatus = .completed then { m with actualCompletionDate := some now } else m
  maintPreSave m false now

/-- Modelled from the spec: the provided sources declare the
`studentRating` / `studentFeedback` fields on `maintenanceRequestSchema` but
the route that records a student rating on a maintenance request is not
among them.  Per the spec, rating is permitted only when
`status == completed` and is rejected otherwise with a PreconditionFailed
condition, storing nothing. -/
def MaintenanceRequest.submitStudentRating (m : MaintenanceRequest) (score : Int)
    (feedback : String) : Except String MaintenanceRequest :=
  if m.status = MaintStatus.completed then
    .ok { m with studentRating := some score, studentFeedback := feedback }
  else
    .error "PreconditionFailed"

/-! ## OutpassRequest (outpassRequestSchema, backend/models) -/

/-- The `outpassRequestSchema.status` enum. -/
inductive OutpassStatus
  | pending | under_review | approved | rejected | cancelled | checked_out | overdue | returned
  deriving DecidableEq

/-- One `outpassRequestSchema.statusHistory` entry. -/
structure OutpassHistoryEntry where
  status : OutpassStatus
  changedBy : Option Nat
  changedAt : Int
  notes : String
  location : String
  deriving DecidableEq

/-- Milliseconds in one hour (`1000 * 60 * 60`). -/
def msPerHour : Int := 1000 * 60 * 60

/-- Milliseconds in one day (`1000 * 60 * 60 * 24`). -/
def msPerDay : Int := 1000 * 60 * 60 * 24

/-- An outpass request (`outpassRequestSchema`), restricted to the fields
the lifecycle methods read or write.  The code forms the out and in
instants by parsing `` `${date.toDateString()} ${time}` ``, i.e. the date's
midnight plus the wall-clock time of day; the embedding carries the two
summands (`…Midnight`, the date part in epoch milliseconds, and `…Offset`,
the parsed time-of-day in milliseconds). -/
structure OutpassRequest where
  reason : String
  outDateMidnight : Int
  outTimeOffset : Int
  inDateMidnight : Int
  inTimeOffset : Int
  durationDays : Int
  durationHours : Int
  status : OutpassStatus
  reviewedBy : Option Nat
  reviewedAt : Option Int
  reviewNotes : String
  actualOutTime : Option Int
  actualInTime : Option Int
  checkedOutBy : Option Nat
  checkedInBy : Option Nat
  requestedBy : Nat
  statusHistory : List OutpassHistoryEntry
  deriving DecidableEq

/-- The out instant: `new Date(`${outDate.toDateString()} ${outTime}`)`. -/
def OutpassRequest.outInstant (r : OutpassRequest) : Int :=
  r.outDateMidnight + r.outTimeOffset

/-- The scheduled return instant:
`new Date(`${inDate.toDateString()} ${inTime}`)`. -/
def OutpassRequest.inInstant (r : OutpassRequest) : Int :=
  r.inDateMidnight + r.inTimeOffset

/-- `outpassRequestSchema.pre('save')`: recomputes `duration.days` and
`duration.hours` from the four date/time fields (the guard that all four be
present always holds here: the schema marks them required and the creation
route rejects empty values), JavaScript style — `Math.floor` is `Int.fdiv`
and the `%` remainder (sign of the dividend) is `Int.tmod`; a new document
additionally seeds `statusHistory` with a `pending` entry. -/
def outpassPreSave (r : OutpassRequest) (isNew : Bool) (now : Int) : OutpassRequest :=
  let diffMs := r.inInstant - r.outInstant
  let r := { r with
    durationDays := Int.fdiv diffMs msPerDay,
    durationHours := Int.fdiv (Int.tmod diffMs msPerDay) msPerHour }
  if isNew then
    { r with
      statusHistory :=
        r.statusHistory ++
          [OutpassHistoryEntry.mk .pending (some r.requestedBy) now
            "Outpass request submitted" ""] }
  else r

/-- `outpassRequestSchema.methods.updateStatus`: appends one history entry,
sets the status, stamps the review fields on approval/rejection and the
check-out/check-in fields, and saves. -/
def OutpassRequest.updateStatus (r : OutpassRequest) (newStatus : OutpassStatus)
    (changedBy : Option Nat) (notes : String) (location : String) (now : Int) :
    OutpassRequest :=
  let r :=
    { r with
      statusHistory :=
        r.statusHistory ++ [OutpassHistoryEntry.mk newStatus changedBy now notes location] }
  let r := { r with status := newStatus }
  let r :=
    if newStatus = .approved ∨ newStatus = .rejected then
      let r := { r with reviewedBy := changedBy, reviewedAt := some now }
      if notes ≠ "" then { r with reviewNotes := notes } else r
    else r
  let r :=
    if newStatus = .checked_out then
      { r with actualOutTime := some now, checkedOutBy := changedBy }
    else if newStatus = .returned then
      { r with actualInTime := some now, checkedInBy := changedBy }
    else r
  outpassPreSave r false now

/-- `outpassRequestSchema.virtual('isOverdue')`: true exactly when the
status is `checked_out` and the current time is past the scheduled return
instant; false for every other status. -/
def OutpassRequest.isOverdue (r : OutpassRequest) (now : Int) : Bool :=
  if r.status = OutpassStatus.checked_out then
    decide (now > r.inInstant)
  else false

/-- `outpassRequestSchema.methods.checkOverdueStatus`: transitions to
`overdue` via `updateStatus` when the document is checked out and the
virtual holds; otherwise leaves the document untouched. -/
def OutpassRequest.checkOverdueStatus (r : OutpassRequest) (now : Int) : OutpassRequest :=
  if r.status = OutpassStatus.checked_out ∧ r.isOverdue now = true then
    r.updateStatus .overdue none "Automatic status update - Return time exceeded" "" now
  else r

/-- C5: each of the three `updateStatus` instance methods appends exactly
one entry to `statusHistory`, carrying the new status and the supplied
actor, and leaves every previously existing entry unchanged. -/
theorem updateStatus_appends_one_entry :
    (∀ (o : Order) (s : OrderStatus) (updatedBy : Option Nat) (notes : String) (now : Int),
      (o.updateStatus s updatedBy notes now).statusHistory =
        o.statusHistory ++ [⟨s, now, updatedBy, notes⟩]) ∧
    (∀ (m : MaintenanceRequest) (s : MaintStatus) (changedBy : Option Nat) (notes : String)
        (now : Int),
      (m.updateStatus s changedBy notes now).statusHistory =
        m.statusHistory ++ [⟨s, changedBy, now, notes⟩]) ∧
    (∀ (r : OutpassRequest) (s : OutpassStatus) (changedBy : Option Nat)
        (notes location : String) (now : Int),
      (r.updateStatus s changedBy notes location now).statusHistory =
        r.statusHistory ++ [⟨s, changedBy, now, notes, location⟩]) := by
  refine ⟨fun o s updatedBy notes now => ?_, fun m s changedBy notes now => ?_,
    fun r s changedBy notes location now => ?_⟩
  · cases s <;> simp [Order.updateStatus, orderPreSave]
  · by_cases h : s = MaintStatus.completed <;>
      simp [MaintenanceRequest.updateStatus, maintPreSave, h]
  · by_cases hn : notes = "" <;>
      cases s <;> simp [OutpassRequest.updateStatus, outpassPreSave, hn]

/-- C6: `addRating` on an order succeeds exactly when the order is
delivered, and the student rating on a maintenance request is accepted
exactly when the request is completed; in every other state both fail with
the precondition error and no rating is stored. -/
theorem rating_preconditions (o : Order) (ratingData : RatingData) (now : Int)
    (m : MaintenanceRequest) (score : Int) (feedback : String) :
    ((∃ o', o.addRating ratingData now = .ok o') ↔ o.status = .delivered) ∧
    (∀ o', o.addRating ratingData now = .ok o' → o'.rating.isSome = true) ∧
    (o.status ≠ .delivered →
      o.addRating ratingData now = .error "Can only rate delivered orders") ∧
    ((∃ m', m.submitStudentRating score feedback = .ok m') ↔ m.status = .completed) ∧
    (∀ m', m.submitStudentRating score feedback = .ok m' →
      m'.studentRating = some score ∧ m'.studentFeedback = feedback) ∧
    (m.status ≠ .completed →
      m.submitStudentRating score feedback = .error "PreconditionFailed") := by
  refine ⟨?_, ?_, ?_, ?_, ?_, ?_⟩
  · constructor
    · rintro ⟨o', h⟩
      unfold Order.addRating at h
      split at h
      · cases h
      · next hd => exact not_not.mp hd
    · intro h
      simp [Order.addRating, h, orderPreSave]
  · intro o' h
    unfold Order.addRating at h
    split at h
    · cases h
    · cases h
      simp [orderPreSave]
  · intro h
    simp [Order.addRating, h]
  · constructor
    · rintro ⟨m', h⟩
      unfold MaintenanceRequest.submitStudentRating at h
      split at h
      · next hd => exact hd
      · cases h
    · intro h
      simp [MaintenanceRequest.submitStudentRating, h]
  · intro m' h
    unfold MaintenanceRequest.submitStudentRating at h
    split at h
    · cases h
      exact ⟨rfl, rfl⟩
    · cases h
  · intro h
    simp [MaintenanceRequest.submitStudentRating, h]

/-- A delivered order used by the C6 witness. -/
def deliveredOrderC6 : Order :=
  Order.mk "ORD4" 4 [] 80 20 0 100 .delivered none (some 50) none none [] none ""

/-- A still-pending maintenance request used by the C6 witness. -/
def pendingMaintC6 : MaintenanceRequest :=
  MaintenanceRequest.mk "Leaky tap" "Bathroom sink leaks" .pending none none "" 4
    [⟨.pending, some 4, 0, "Request submitted"⟩]

/-- C6 witness: the delivered order accepts a rating; the pending
maintenance request rejects one with the precondition error. -/
theorem rating_preconditions_witness :
    deliveredOrderC6.status = .delivered ∧
    pendingMaintC6.submitStudentRating 5 "great" = .error "PreconditionFailed" := by
  have h := rating_preconditions deliveredOrderC6 ⟨some 5, some 4, some 5, "tasty"⟩ 60
    pendingMaintC6 5 "great"
  exact ⟨by decide, h.2.2.2.2.2 (by decide)⟩

/-- The spec-side day/hour split of a non-negative millisecond difference:
whole days, then whole hours of the remainder (Euclidean division). -/
def dayHourSplit (diffMs : Int) : Int × Int :=
  (diffMs / msPerDay, diffMs % msPerDay / msPerHour)

/-- C7: on every save, `duration.days` and `duration.hours` are recomputed
from the four date/time fields as the integer day/hour split of the
difference between the out instant and the in instant (the creation route
guarantees the out instant precedes the in instant): whole days, whole
remaining hours below 24, with the split bracketing the difference. -/
theorem outpass_duration_split (r : OutpassRequest) (isNew : Bool) (now : Int)
    (h : r.outInstant ≤ r.inInstant) :
    (outpassPreSave r isNew now).durationDays = (dayHourSplit (r.inInstant - r.outInstant)).1 ∧
    (outpassPreSave r isNew now).durationHours = (dayHourSplit (r.inInstant - r.outInstant)).2 ∧
    0 ≤ (outpassPreSave r isNew now).durationDays ∧
    0 ≤ (outpassPreSave r isNew now).durationHours ∧
    (outpassPreSave r isNew now).durationHours < 24 ∧
    (outpassPreSave r isNew now).durationDays * msPerDay +
        (outpassPreSave r isNew now).durationHours * msPerHour ≤
      r.inInstant - r.outInstant ∧
    r.inInstant - r.outInstant <
      (outpassPreSave r isNew now).durationDays * msPerDay +
        ((outpassPreSave r isNew now).durationHours + 1) * msPerHour := by
  have hDayPos : (0:Int) ≤ msPerDay := by norm_num [msPerDay]
  have hHourPos : (0:Int) ≤ msPerHour := by norm_num [msPerHour]
  have hd : 0 ≤ r.inInstant - r.outInstant := by omega
  have hfd : ∀ a : Int, Int.fdiv a msPerDay = a / msPerDay := fun a =>
    Int.fdiv_eq_ediv a hDayPos
  have hfh : ∀ a : Int, Int.fdiv a msPerHour = a / msPerHour := fun a =>
    Int.fdiv_eq_ediv a hHourPos
  have htmod : Int.tmod (r.inInstant - r.outInstant) msPerDay =
      (r.inInstant - r.outInstant) % msPerDay :=
    Int.tmod_eq_emod hd hDayPos
  have hdays : (outpassPreSave r isNew now).durationDays =
      (r.inInstant - r.outInstant) / msPerDay := by
    cases isNew <;> simp [outpassPreSave, hfd]
  have hhours : (outpassPreSave r isNew now).durationHours =
      (r.inInstant - r.outInstant) % msPerDay / msPerHour := by
    cases isNew <;> simp [outpassPreSave, htmod, hfh]
  rw [hdays, hhours]
  unfold dayHourSplit
  refine ⟨rfl, rfl, ?_, ?_, ?_, ?_, ?_⟩ <;>
    · simp only [msPerDay, msPerHour] at *
      omega

/-- The C7 witness outpass: out at 10:00 on one day, in at 14:00 on the next
(a 28-hour difference, matching the spec's 2025-01-01 10:00 → 2025-01-02
14:00 example). -/
def exampleOutpassC7 : OutpassRequest :=
  OutpassRequest.mk "home visit" 0 (10 * msPerHour) msPerDay (14 * msPerHour) 0 0
    .pending none none "" none none none none 11 []

/-- C7 witness: the saved example outpass carries `duration.days = 1` and
`duration.hours = 4`. -/
theorem outpass_duration_split_witness :
    (outpassPreSave exampleOutpassC7 true 0).durationDays = 1 ∧
    (outpassPreSave exampleOutpassC7 true 0).durationHours = 4 := by
  have h := outpass_duration_split exampleOutpassC7 true 0 (by decide)
  refine ⟨?_, ?_⟩
  · rw [h.1]; decide
  · rw [h.2.1]; decide

/-- C8: the derived `isOverdue` predicate holds exactly when the status is
`checked_out` and the current time is past the scheduled return instant
(the in date's midnight plus the in time of day); for every other status it
is false regardless of the current time. -/
theorem isOverdue_spec (r : OutpassRequest) (now : Int) :
    (r.isOverdue now = true ↔
      (r.status = .checked_out ∧ now > r.inDateMidnight + r.inTimeOffset)) ∧
    (r.status ≠ .checked_out → ∀ t : Int, r.isOverdue t = false) := by
  constructor
  · by_cases h : r.status = OutpassStatus.checked_out <;>
      simp [OutpassRequest.isOverdue, OutpassRequest.inInstant, h]
  · intro h t
    simp [OutpassRequest.isOverdue, h]

/-- An approved (not checked-out) outpass used by the C8 witness. -/
def approvedOutpassC8 : OutpassRequest :=
  OutpassRequest.mk "medical" 0 (8 * msPerHour) 0 (20 * msPerHour) 0 12
    .approved (some 9) (some 1) "ok" none none none none 12 []

/-- C8 witness: the approved outpass is never overdue, even long after its
scheduled return instant. -/
theorem isOverdue_spec_witness :
    approvedOutpassC8.isOverdue (1000 * msPerDay) = false := by
  have h := isOverdue_spec approvedOutpassC8 (1000 * msPerDay)
  exact h.2 (by decide) (1000 * msPerDay)

/-! ## MealRating (mealRatingSchema, backend/models/MealRating.js) -/

/-- A meal rating document (`mealRatingSchema`): the top-level 1–5 rating,
the optional taste/quality/quantity sub-scores, and the feedback fields. -/
structure MealRating where
  user : Nat
  menuId : Nat
  rating : Int
  taste : Option Int
  quality : Option Int
  quantity : Option Int
  feedback : String
  wouldRecommend : Bool
  anonymous : Bool
  deriving DecidableEq

/-- JavaScript truthiness of an optional numeric field: `undefined` and `0`
are falsy, every other number is truthy. -/
def truthy : Option Int → Bool
  | none => false
  | some v => v != 0

/-- JavaScript `Math.round`: the floor of `x + 1/2` (ties go toward positive
infinity). -/
def jsRound (x : ℚ) : Int :=
  ⌊x + 1 / 2⌋

/-- `mealRatingSchema.pre('save')`: when the three sub-scores are all
(truthily) present, the top-level rating is recomputed as
`Math.round((taste + quality + quantity) / 3)`, overriding whatever was
supplied. -/
def mealRatingPreSave (m : MealRating) : MealRating :=
  if truthy m.taste && truthy m.quality && truthy m.quantity then
    { m with
      rating :=
        jsRound (((m.taste.getD 0 + m.quality.getD 0 + m.quantity.getD 0 : Int) : ℚ) / 3) }
  else m

/-- C9: for every meal-rating save in which the taste, quality and quantity
sub-scores are all present (each at least 1, as the schema enforces), the
stored top-level rating equals `round((taste + quality + quantity) / 3)`
after the save, regardless of any independently supplied top-level value. -/
theorem mealRating_overall_recomputed (m : MealRating) (t q qt : Int)
    (ht : m.taste = some t) (hq : m.quality = some q) (hqt : m.quantity = some qt)
    (h1 : 1 ≤ t) (h2 : 1 ≤ q) (h3 : 1 ≤ qt) :
    (mealRatingPreSave m).rating = round (((t + q + qt : Int) : ℚ) / 3) := by
  have htr : truthy (some t) = true := by
    simp [truthy]
    omega
  have hqr : truthy (some q) = true := by
    simp [truthy]
    omega
  have hqtr : truthy (some qt) = true := by
    simp [truthy]
    omega
  simp [mealRatingPreSave, ht, hq, hqt, htr, hqr, hqtr, jsRound, round_eq]

/-- The C9 witness document: sub-scores 5, 4 and 4 with an independently
supplied top-level rating of 1. -/
def mealRatingC9 : MealRating :=
  MealRating.mk 21 3 1 (some 5) (some 4) (some 4) "good" true false

/-- C9 witness: the saved document's rating is 4 — the rounded mean
`round(13/3)` — not the supplied 1. -/
theorem mealRating_overall_recomputed_witness :
    (mealRatingPreSave mealRatingC9).rating = 4 ∧ mealRatingC9.rating = 1 := by
  have h := mealRating_overall_recomputed mealRatingC9 5 4 4 rfl rfl rfl
    (by norm_num) (by norm_num) (by norm_num)
  constructor
  · rw [h]
    norm_num [round_eq]
  · rfl

/-! ## MenuItem (menuItemSchema, backend/models/Menu.js) and placement side
effects (order-placement route) -/

/-- A menu item (`menuItemSchema`), restricted to the fields the placement
flow reads or writes.  `stock = -1` is the unlimited-stock sentinel. -/
structure MenuItem where
  name : String
  price : Int
  stock : Int
  orderCount : Int
  isActive : Bool
  isAvailable : Bool
  deriving DecidableEq

/-- `menuItemSchema.methods.incrementOrderCount`: adds the quantity to
`orderCount` and, when `stock > 0`, subtracts it from `stock`. -/
def MenuItem.incrementOrderCount (m : MenuItem) (quantity : Int) : MenuItem :=
  let m := { m with orderCount := m.orderCount + quantity }
  if m.stock > 0 then { m with stock := m.stock - quantity } else m

/-- The placement route's per-line availability gate: the line passes when
the menu item is active and available and, unless the stock sentinel is -1,
its stock covers the requested quantity. -/
def itemAvailable (m : MenuItem) (quantity : Int) : Bool :=
  (m.isActive && m.isAvailable) && !(m.stock != -1 && decide (m.stock < quantity))

/-- The placement route's update loop: for each cart line item, the
referenced menu item is put through `incrementOrderCount(quantity)`.  The
menu collection is modelled as a map from menu-item id to document. -/
def applyOrderCounts : List CartItem → (Nat → MenuItem) → (Nat → MenuItem)
  | [], menus => menus
  | item :: rest, menus =>
    applyOrderCounts rest (fun id =>
      if id = item.menuItem then (menus id).incrementOrderCount item.quantity else menus id)

theorem applyOrderCounts_not_mem (l : List CartItem) (menus : Nat → MenuItem) (id : Nat)
    (h : ∀ item ∈ l, item.menuItem ≠ id) :
    applyOrderCounts l menus id = menus id := by
  induction l generalizing menus with
  | nil => rfl
  | cons x rest ih =>
    have hx : x.menuItem ≠ id := h x (List.mem_cons_self x rest)
    have hrest : ∀ item ∈ rest, item.menuItem ≠ id := fun j hj =>
      h j (List.mem_cons_of_mem x hj)
    have hne : ¬ id = x.menuItem := fun hcontra => hx hcontra.symm
    simp only [applyOrderCounts]
    rw [ih _ hrest]
    simp [hne]

theorem applyOrderCounts_mem (l : List CartItem) (menus : Nat → MenuItem) (item : CartItem)
    (hmem : item ∈ l) (hnodup : (l.map (fun i => i.menuItem)).Nodup) :
    applyOrderCounts l menus item.menuItem =
      (menus item.menuItem).incrementOrderCount item.quantity := by
  induction l generalizing menus with
  | nil => cases hmem
  | cons x rest ih =>
    simp only [List.map_cons, List.nodup_cons, List.mem_map] at hnodup
    rcases List.mem_cons.mp hmem with rfl | hmem'
    · have hrest : ∀ j ∈ rest, j.menuItem ≠ item.menuItem := by
        intro j hj hcontra
        exact hnodup.1 ⟨j, hj, hcontra⟩
      simp only [applyOrderCounts]
      rw [applyOrderCounts_not_mem rest _ _ hrest]
      simp
    · have hne : item.menuItem ≠ x.menuItem := by
        intro hcontra
        exact hnodup.1 ⟨item, hmem', hcontra⟩
      simp only [applyOrderCounts]
      rw [ih _ hmem' hnodup.2]
      simp [hne]

/-- C10: when an order is placed from a cart (so every line passed the
route's availability/stock gate, line quantities are at least 1 per the
schema, and line menu-item ids are distinct because `addItem` merges by
id), each referenced menu item's `orderCount` grows by the line's quantity;
a finite-stock item (`stock ≠ -1`) loses that quantity of stock while an
unlimited item keeps the -1 sentinel; and the cart is then cleared — empty
item list, both totals zero. -/
theorem order_placement_side_effects (cart : Cart) (menus : Nat → MenuItem)
    (item : CartItem) (now : Int)
    (hmem : item ∈ cart.items)
    (hnodup : (cart.items.map (fun i => i.menuItem)).Nodup)
    (hqty : 1 ≤ item.quantity)
    (hcheck : itemAvailable (menus item.menuItem) item.quantity = true) :
    (applyOrderCounts cart.items menus item.menuItem).orderCount =
      (menus item.menuItem).orderCount + item.quantity ∧
    ((menus item.menuItem).stock ≠ -1 →
      (applyOrderCounts cart.items menus item.menuItem).stock =
        (menus item.menuItem).stock - item.quantity) ∧
    ((menus item.menuItem).stock = -1 →
      (applyOrderCounts cart.items menus item.menuItem).stock = -1) ∧
    (cart.clearCart now).items = [] ∧
    (cart.clearCart now).totalAmount = 0 ∧
    (cart.clearCart now).itemCount = 0 := by
  rw [applyOrderCounts_mem cart.items menus item hmem hnodup]
  simp only [itemAvailable, Bool.and_eq_true, Bool.not_eq_true', Bool.and_eq_false_iff,
    bne_eq_false_iff_eq, decide_eq_false_iff_not, not_lt] at hcheck
  refine ⟨?_, ?_, ?_, rfl, rfl, rfl⟩
  · by_cases hpos : (menus item.menuItem).stock > 0 <;>
      simp [MenuItem.incrementOrderCount, hpos]
  · intro hs
    have hge : item.quantity ≤ (menus item.menuItem).stock := by
      rcases hcheck.2 with hsent | hge
      · exact absurd hsent hs
      · exact hge
    have hpos : (menus item.menuItem).stock > 0 := by omega
    simp [MenuItem.incrementOrderCount, hpos]
  · intro hs
    have hneg : ¬((menus item.menuItem).stock > 0) := by omega
    simp [MenuItem.incrementOrderCount, hneg, hs]

/-- The first line of the C10 witness cart: menu item 1, quantity 2. -/
def lineItemC10 : CartItem :=
  CartItem.mk 1 2 50 "" 0

/-- The C10 witness cart: two lines over distinct menu items. -/
def placementCartC10 : Cart :=
  Cart.mk [lineItemC10, CartItem.mk 2 1 30 "" 0] 130 3 0

/-- The C10 witness menu collection: item 1 tracks finite stock 10, item 2
carries the unlimited sentinel -1. -/
def placementMenusC10 : Nat → MenuItem := fun id =>
  if id = 1 then MenuItem.mk "Samosa" 50 10 0 true true
  else MenuItem.mk "Tea" 30 (-1) 5 true true

/-- C10 witness: after placement, menu item 1 has `orderCount` 2 and stock
8, and the cleared cart is empty with zero totals. -/
theorem order_placement_side_effects_witness :
    (applyOrderCounts placementCartC10.items placementMenusC10 lineItemC10.menuItem).orderCount
        = 2 ∧
    (applyOrderCounts placementCartC10.items placementMenusC10 lineItemC10.menuItem).stock
        = 8 ∧
    (placementCartC10.clearCart 9).items = [] ∧
    (placementCartC10.clearCart 9).totalAmount = 0 := by
  have h := order_placement_side_effects placementCartC10 placementMenusC10 lineItemC10 9
    (by decide) (by decide) (by decide) (by decide)
  refine ⟨?_, ?_, h.2.2.2.1, h.2.2.2.2.1⟩
  · rw [h.1]
    decide
  · rw [h.2.1 (by decide)]
    decide

end HostelHub
